import Mathlib

/-!
Verification of the dwmBar status-bar program.

Shallow embedding of the final revision of the sources:
`src/dwmbar.cpp` (orchestrator), the final `modules.cpp` revision
(`Module::operator()`, `ModuleDate/Battery/CPU/RAM/Disk::runModule_`) and the
final `modules.hpp` revision (class declarations, constructors).  Machine
floats of the source are modelled as `Rat`; the numeric texts the program
reads (sysfs, procfs) are decimal integers, on which the float comparisons
and arithmetic used by the program coincide with exact rational arithmetic.
Fallible C++ library calls are modelled with `Option`; an uncaught C++
exception is modelled as an explicit crash result.
-/

namespace DWMBspace

/-! ## Numeric parsing helpers (models of std::stoi / std::stof)

The program applies `stoi`/`stof` to decimal-integer texts: configuration
fields, sysfs capacity and procfs values.  `digitsToNat` folds decimal
digits exactly as those texts are parsed; a non-digit character makes the
parse fail, which models the `std::invalid_argument` exception that
`stoi`/`stof` throw on text with no leading numeric part. -/

def digitsToNat (acc : Nat) : List Char → Option Nat
  | [] => some acc
  | c :: rest =>
    if c.isDigit then digitsToNat (acc * 10 + (c.toNat - 48)) rest else none

/-- Model of `std::stoi` on the decimal texts the program feeds it: an
optional leading minus sign, then digits.  On text where `std::stoi` would
throw, the model returns 0 (no claim touches such text). -/
def stoi (s : String) : Int :=
  match s.data with
  | '-' :: rest => -(Int.ofNat ((digitsToNat 0 rest).getD 0))
  | l => Int.ofNat ((digitsToNat 0 l).getD 0)

/-- Model of `std::stof`/`std::stod` on a decimal-integer text: `none` where
the C++ call throws (empty text or a leading non-digit), otherwise the value. -/
def stofPos (s : String) : Option Rat :=
  if s.data = [] then none
  else (digitsToNat 0 s.data).map (fun n => (n : Rat))

/-! ## Fixed-notation formatting (model of `<< fixed << setprecision(p)`)

The source formats floats with `std::fixed` and `setprecision(0)` or `(1)`.
The model rounds half away from zero via floor division; every value a claim
evaluates is exact at its precision, where all common rounding rules agree. -/

/-- Numerator-level rounding of `q * scale` to the nearest integer. -/
def ratRoundScaled (scale : Nat) (q : Rat) : Int :=
  Int.fdiv (2 * (scale : Int) * q.num + (q.den : Int)) (2 * (q.den : Int))

/-- `fixed << setprecision(1)` of a non-negative value. -/
def fmt1 (q : Rat) : String :=
  let n : Int := ratRoundScaled 10 q
  toString (Int.fdiv n 10) ++ "." ++ toString (n - 10 * Int.fdiv n 10)

/-- `fixed << setprecision(0)` of a non-negative value. -/
def fmt0 (q : Rat) : String :=
  toString (ratRoundScaled 1 q)

/-! ## Bar text assembly — `makeBarOutput` and the aggregation loop

From `src/dwmbar.cpp`: `makeBarOutput` clears the output, appends
`element + delimiter` for every element from `begin()` to `end() - 1`,
then appends `back()`.  For an empty vector the source is undefined
(`end() - 1` precedes `begin()`); the model returns the empty string there,
and every theorem about it assumes a non-empty list as the spec does. -/

def makeBarOutput (moduleOutput : List String) (delimiter : String) : String :=
  (moduleOutput.dropLast.foldl (fun barText m => barText ++ m ++ delimiter) "")
    ++ (moduleOutput.getLast?.getD "")

/-- One wake of the aggregation loop of `main` (src/dwmbar.cpp lines 217-227):
join the top slots; if two bars are enabled, join the bottom slots and
combine with a leading space, a space after the top text, and the
inter-bar delimiter. -/
def renderBarText (twoBars : Bool) (topDelimiter bottomDelimiter botTopDelimiter : String)
    (topModuleOutputs bottomModuleOutputs : List String) : String :=
  let barText := makeBarOutput topModuleOutputs topDelimiter
  if twoBars then
    let barTextBottom := makeBarOutput bottomModuleOutputs bottomDelimiter
    " " ++ barText ++ " " ++ botTopDelimiter ++ barTextBottom
  else
    barText

/-- Specification-side join, written from the claim text: the strings in
order with the delimiter between consecutive elements and no leading or
trailing delimiter. -/
def joinSpec (delimiter : String) : List String → String
  | [] => ""
  | [x] => x
  | x :: y :: ys => x ++ delimiter ++ joinSpec delimiter (y :: ys)

/-! ## Startup validation of module descriptors

From `main` in src/dwmbar.cpp, lines 120-164 (top bar) and 166-214 (bottom
bar): each descriptor must have exactly 4 fields (else exit 1); the refresh
interval is parsed and must be non-negative (else exit 2); the real-time
signal offset is parsed and must be non-negative (else exit 3); a
non-external descriptor must name one of the five built-in modules (else
exit 4).  The same checks run, in the same order, in both the external and
the internal branch of the source. -/

/-- Number of possible real-time signals (src/dwmbar.cpp line 59); the
`signalCondition` table has exactly this many entries. -/
def sigRTNUM : Nat := 30

/-- The table access `signalCondition[rtSig]` on the 30-entry vector is
within bounds exactly for offsets 0 through 29. -/
def signalTableInBounds (rtSig : Int) : Prop :=
  0 ≤ rtSig ∧ rtSig < (sigRTNUM : Int)

/-- Validation of one module descriptor: `none` when the descriptor is
accepted and a module worker is started, `some code` when the process
prints an error and exits with `code`. -/
def validateModule (tb : List String) : Option Nat :=
  match tb with
  | [name, kind, intervalStr, rtSigStr] =>
    if kind = "external" then
      if stoi intervalStr < 0 then some 2
      else if stoi rtSigStr < 0 then some 3
      else none
    else
      if stoi intervalStr < 0 then some 2
      else if stoi rtSigStr < 0 then some 3
      else if name = "ModuleDate" then none
      else if name = "ModuleBattery" then none
      else if name = "ModuleCPU" then none
      else if name = "ModuleRAM" then none
      else if name = "ModuleDisk" then none
      else some 4
  | _ => some 1

/-- The five recognized internal module identifiers. -/
def internalModuleNames : List String :=
  ["ModuleDate", "ModuleBattery", "ModuleCPU", "ModuleRAM", "ModuleDisk"]

/-- Validation of a whole bar list, in declared order: the exit code of the
first failing descriptor, `none` when every descriptor passes. -/
def validateBar : List (List String) → Option Nat
  | [] => none
  | tb :: rest =>
    match validateModule tb with
    | some code => some code
    | none => validateBar rest

/-- Exit code produced by startup: top list first, then, when two bars are
enabled, the bottom list.  `none` means startup completes and the
aggregation loop is entered. -/
def startupExit (twoBars : Bool) (topModuleList bottomModuleList : List (List String)) :
    Option Nat :=
  match validateBar topModuleList with
  | some code => some code
  | none => if twoBars then validateBar bottomModuleList else none

/-- Observable status of the orchestrator after entering the aggregation
loop. -/
inductive RunState where
  | running : String → RunState
  | exited : Nat → RunState
deriving DecidableEq

def RunState.isRunning : RunState → Bool
  | RunState.running _ => true
  | RunState.exited _ => false

/-- One wake of the aggregation loop (src/dwmbar.cpp lines 217-228): the
body recomputes and renders the bar text and loops again; it contains no
exit path. -/
def aggLoopIter (twoBars : Bool) (topDelimiter bottomDelimiter botTopDelimiter : String)
    (topModuleOutputs bottomModuleOutputs : List String) : RunState :=
  RunState.running (renderBarText twoBars topDelimiter bottomDelimiter botTopDelimiter
    topModuleOutputs bottomModuleOutputs)

/-- The aggregation loop after `n + 1` wakes; an exit on any earlier wake
would propagate. -/
def aggLoopRun (twoBars : Bool) (topDelimiter bottomDelimiter botTopDelimiter : String)
    (topModuleOutputs bottomModuleOutputs : List String) : Nat → RunState
  | 0 =>
    aggLoopIter twoBars topDelimiter bottomDelimiter botTopDelimiter
      topModuleOutputs bottomModuleOutputs
  | n + 1 =>
    match aggLoopRun twoBars topDelimiter bottomDelimiter botTopDelimiter
        topModuleOutputs bottomModuleOutputs n with
    | RunState.exited code => RunState.exited code
    | RunState.running _ =>
      aggLoopIter twoBars topDelimiter bottomDelimiter botTopDelimiter
        topModuleOutputs bottomModuleOutputs

/-! ## The worker scheduling loop — `Module::operator()`

From the final modules implementation: with a non-zero refresh interval the
worker forever runs one `runModule_()` step and then sleeps for the
interval; the signal condition is never consulted.  With a zero interval it
runs one immediate step and then forever waits on its dedicated signal
condition, running one step per notification.  Neither branch can leave its
`while (true)` loop.  A trace records the suspension and poll events of a
finite unrolling. -/

inductive ModEvent where
  | poll : ModEvent
  | sleepSec : Nat → ModEvent
  | waitSig : ModEvent
deriving DecidableEq

/-- Unrolling of the timed branch: each iteration polls, then sleeps. -/
def intervalLoop (refreshInterval : Nat) : Nat → List ModEvent
  | 0 => []
  | n + 1 =>
    ModEvent.poll :: ModEvent.sleepSec refreshInterval :: intervalLoop refreshInterval n

/-- Unrolling of the signal branch after the initial poll: each iteration
waits for a notification, then polls. -/
def signalLoop : Nat → List ModEvent
  | 0 => []
  | n + 1 => ModEvent.waitSig :: ModEvent.poll :: signalLoop n

/-- Event trace of `Module::operator()` unrolled for `iters` loop
iterations. -/
def moduleTrace (refreshInterval iters : Nat) : List ModEvent :=
  if refreshInterval ≠ 0 then intervalLoop refreshInterval iters
  else ModEvent.poll :: signalLoop iters

/-! ## Battery module

`ModuleBattery::runModule_` of the final revision: both sysfs files are
read with `getline` guarded only by `is_open()`; an unreadable file leaves
the corresponding local string empty and execution continues.  The
capacity float is parsed only when the capacity text is non-empty, and the
slot is written through a two-branch threshold table.  In the `Charging`
branch the chain ends at `< 100.0` with no final `else`: a charging
capacity of 100 or more writes nothing.  The superseded
`ModuleBattery::formatStatus_` (src/modules.cpp) instead returns before
writing when either file fails to open. -/

/-- The threshold table shared verbatim by both revisions
(final runModule_ and superseded formatStatus_): `none` means no branch
assigns the slot. -/
def batteryFormat (batStatus : String) (batCapacity : Rat) (batCapacityStr : String) :
    Option String :=
  if batStatus = "Charging" then
    if batCapacity < 5 then some (batCapacityStr ++ "% ")
    else if batCapacity < 20 then some (batCapacityStr ++ "% ")
    else if batCapacity < 30 then some (batCapacityStr ++ "% ")
    else if batCapacity < 40 then some (batCapacityStr ++ "% ")
    else if batCapacity < 60 then some (batCapacityStr ++ "% ")
    else if batCapacity < 80 then some (batCapacityStr ++ "% ")
    else if batCapacity < 90 then some (batCapacityStr ++ "% ")
    else if batCapacity < 100 then some (batCapacityStr ++ "% ")
    else none
  else
    if batCapacity < 5 then some (batCapacityStr ++ "% ")
    else if batCapacity < 10 then some (batCapacityStr ++ "% ")
    else if batCapacity < 20 then some (batCapacityStr ++ "% ")
    else if batCapacity < 30 then some (batCapacityStr ++ "% ")
    else if batCapacity < 40 then some (batCapacityStr ++ "% ")
    else if batCapacity < 50 then some (batCapacityStr ++ "% ")
    else if batCapacity < 60 then some (batCapacityStr ++ "% ")
    else if batCapacity < 70 then some (batCapacityStr ++ "% ")
    else if batCapacity < 80 then some (batCapacityStr ++ "% ")
    else if batCapacity < 90 then some (batCapacityStr ++ "% ")
    else if batCapacity < 100 then some (batCapacityStr ++ "% ")
    else if batStatus = "Discharging" then some (batCapacityStr ++ "% ")
    else some (batCapacityStr ++ "% ")

/-- One poll of the final `ModuleBattery::runModule_`.  `statusRead` and
`capacityRead` are the first lines of the two sysfs files, `none` when the
file cannot be opened; an unopened file leaves the local text empty.
The result is the slot write performed under the lock, `none` when no
assignment to `*outString_` happens. -/
def batteryRunModule (statusRead capacityRead : Option String) : Option String :=
  let batStatus := statusRead.getD ""
  let batCapacityStr := capacityRead.getD ""
  let batCapacity : Rat :=
    if batCapacityStr ≠ "" then (stofPos batCapacityStr).getD 0 else 0
  batteryFormat batStatus batCapacity batCapacityStr

/-- One poll of the superseded `ModuleBattery::formatStatus_`
(src/modules.cpp lines 106-178): an unopenable status or capacity file
returns before any write. -/
def formatStatus (statusRead capacityRead : Option String) : Option String :=
  match statusRead with
  | none => none
  | some batStatus =>
    match capacityRead with
    | none => none
    | some batCapacityStr =>
      batteryFormat batStatus ((stofPos batCapacityStr).getD 0) batCapacityStr

/-- Specification-side battery glyph table, written from the claim text of
C4 amended at the single point the source forces: a charging capacity of
100 or more selects no glyph and the slot is left unchanged. -/
def batteryGlyphSpec (batStatus : String) (batCapacity : Rat) : Option String :=
  if batStatus = "Charging" then
    if batCapacity < 5 then some ""
    else if batCapacity < 20 then some ""
    else if batCapacity < 30 then some ""
    else if batCapacity < 40 then some ""
    else if batCapacity < 60 then some ""
    else if batCapacity < 80 then some ""
    else if batCapacity < 90 then some ""
    else if batCapacity < 100 then some ""
    else none
  else
    if batCapacity < 5 then some ""
    else if batCapacity < 10 then some ""
    else if batCapacity < 20 then some ""
    else if batCapacity < 30 then some ""
    else if batCapacity < 40 then some ""
    else if batCapacity < 50 then some ""
    else if batCapacity < 60 then some ""
    else if batCapacity < 70 then some ""
    else if batCapacity < 80 then some ""
    else if batCapacity < 90 then some ""
    else if batCapacity < 100 then some ""
    else if batStatus = "Discharging" then some ""
    else some ""

/-! ## CPU module

`ModuleCPU::runModule_` of the final revision, load part: the first line of
`/proc/stat` is tokenized; the label is skipped; field index `fInd` starts
at 1; fields 4 and 5 are added to both the idle and the total sum, every
other field only to the total.  The load percentage is computed from the
deltas against the retained previous sums, which are then overwritten.
Both previous sums start at 0 (constructor in the final modules.hpp). -/

structure CPUState where
  previousTotalLoad : Rat
  previousIdleLoad : Rat
deriving DecidableEq

/-- Constructor initialization of the retained CPU sums. -/
def initialCPUState : CPUState := ⟨0, 0⟩

/-- The field loop of `ModuleCPU::runModule_`: returns the pair
(idle sum, total sum). -/
def accumLoads (fInd : Nat) (curIdleLoad curTotalLoad : Rat) : List Rat → Rat × Rat
  | [] => (curIdleLoad, curTotalLoad)
  | field :: rest =>
    if fInd = 4 ∨ fInd = 5 then
      accumLoads (fInd + 1) (curIdleLoad + field) (curTotalLoad + field) rest
    else
      accumLoads (fInd + 1) curIdleLoad (curTotalLoad + field) rest

/-- One poll of the CPU load computation.  `statFields` carries the numeric
fields after the label of the first `/proc/stat` line, `none` when the file
is unreadable or the line empty (then the load stays 0 and the retained
sums are not updated).  Returns the new state and the percent load. -/
def cpuPoll (st : CPUState) (statFields : Option (List Rat)) : CPUState × Rat :=
  match statFields with
  | none => (st, 0)
  | some fields =>
    let acc := accumLoads 1 0 0 fields
    let percentLoad := (1 - (acc.1 - st.previousIdleLoad) / (acc.2 - st.previousTotalLoad)) * 100
    (⟨acc.2, acc.1⟩, percentLoad)

/-- The load text placed in the output: `fixed << setprecision(1)` of the
percent load. -/
def cpuLoadText (percentLoad : Rat) : String := fmt1 percentLoad

/-! ## Disk module

`ModuleDisk::runModule_`: one growing output string; the first file system
is prefixed with the home icon, every later one with two spaces and the
disk icon; a failed `statvfs` call leaves the space at 0; the value is
available blocks times block size, divided by 1073741824 and formatted
with `setprecision(0)`, suffixed `Gi`.  The slot is assigned and the
orchestrator notified inside the loop, once per file system. -/

/-- Space value of one file system.  `stat` is the `statvfs` result:
`some (f_bavail, f_bsize)` on success, `none` on failure (then the value
stays at its 0.0 initialization). -/
def diskSpaceValue : Option (Nat × Nat) → Rat
  | some s => ((s.1 * s.2 : Nat) : Rat) / 1073741824
  | none => 0

/-- Fragment contributed by one file system: icon prefix, formatted value,
`Gi` suffix. -/
def diskFragment (iconInd : Nat) (stat : Option (Nat × Nat)) : String :=
  (if iconInd = 0 then " " else "   ") ++ fmt0 (diskSpaceValue stat) ++ "Gi"

/-- The file-system loop: the list of successive slot writes, one per file
system processed. -/
def diskLoop (iconInd : Nat) (output : String) : List (Option (Nat × Nat)) → List String
  | [] => []
  | stat :: rest =>
    let out := output ++ diskFragment iconInd stat
    out :: diskLoop (iconInd + 1) out rest

/-- All slot writes of one `ModuleDisk::runModule_` poll over the
`statvfs` results of the configured file systems, in order. -/
def diskWrites (stats : List (Option (Nat × Nat))) : List String :=
  diskLoop 0 "" stats

/-- In-order concatenation of the fragments starting at a given icon
index. -/
def fragsConcat (iconInd : Nat) : List (Option (Nat × Nat)) → String
  | [] => ""
  | stat :: rest => diskFragment iconInd stat ++ fragsConcat (iconInd + 1) rest

/-! ## External-command module -/

/-- Modelled from the spec: the body of `ModuleExtern::runModule_` is not
among the provided sources — only its declaration, its doc comment
("truncated to 500 characters") and the `lengthLimit_` member appear in the
final modules.hpp revision.  Per the spec, the captured standard output of
the command is truncated to its first 500 characters and written to the
slot verbatim, with nothing added. -/
def lengthLimit_ : Nat := 500

/-- Modelled from the spec: slot text written by one external-module poll
from the captured standard output of the configured command. -/
def externOutput (captured : String) : String :=
  if lengthLimit_ < captured.length then String.mk (captured.data.take lengthLimit_)
  else captured

/-! ## RAM module

`ModuleRAM::runModule_`: scans `/proc/meminfo` for the first line whose
first eight characters are `MemFree:`; if the scan reaches end of file the
`getline` failure leaves `memLine` empty.  Two stream extractions then take
the second whitespace-separated token (empty when the line has fewer than
two tokens), and `stof` is applied to it UNGUARDED: on an empty or
non-numeric token `stof` throws `std::invalid_argument`, which no handler
catches, terminating the worker and with it the process. -/

/-- Result of one poll-and-format step: either the slot write it performs,
or a crash from an uncaught exception. -/
inductive StepResult where
  | ok : String → StepResult
  | crashed : StepResult
deriving DecidableEq

/-- The scan loop of `ModuleRAM::runModule_` over the lines of
`/proc/meminfo` (an unreadable file reads as no lines at all). -/
def findMemFreeLine : List String → String
  | [] => ""
  | memLine :: rest =>
    if memLine.data.take 8 = "MemFree:".data then memLine else findMemFreeLine rest

/-- Two stream extractions into the same variable: skip the first
whitespace-separated token, return the second, empty when absent. -/
def secondWord (s : String) : String :=
  String.mk
    (((((s.data.dropWhile (fun c => c.isWhitespace)).dropWhile
        (fun c => ¬ c.isWhitespace)).dropWhile
        (fun c => c.isWhitespace)).takeWhile (fun c => ¬ c.isWhitespace)))

/-- One poll of `ModuleRAM::runModule_` over the lines read from
`/proc/meminfo`. -/
def ramStep (memLines : List String) : StepResult :=
  let memLine := findMemFreeLine memLines
  let freeMemStr := secondWord memLine
  match stofPos freeMemStr with
  | none => StepResult.crashed
  | some v =>
    let memGi := v / 1048576
    StepResult.ok (" " ++ fmt1 memGi ++ "Gi")

end DWMBspace

namespace DWMBspace

/-- Accumulator shift for the `makeBarOutput` fold. -/
theorem foldl_delim_shift (d a : String) (l : List String) :
    l.foldl (fun barText m => barText ++ m ++ d) a
      = a ++ l.foldl (fun barText m => barText ++ m ++ d) "" := by
  induction l generalizing a with
  | nil => simp
  | cons x xs ih =>
    simp only [List.foldl_cons]
    rw [ih (a ++ x ++ d), ih ("" ++ x ++ d)]
    simp [String.append_assoc]

theorem makeBarOutput_eq_joinSpec (d : String) :
    ∀ l : List String, l ≠ [] → makeBarOutput l d = joinSpec d l := by
  intro l
  induction l with
  | nil => intro h; exact absurd rfl h
  | cons x xs ih =>
    intro _
    cases xs with
    | nil => simp [makeBarOutput, joinSpec]
    | cons y ys =>
      have hrec : makeBarOutput (y :: ys) d = joinSpec d (y :: ys) := ih (by simp)
      simp only [makeBarOutput, List.dropLast_cons₂, List.foldl_cons,
        List.getLast?_cons_cons] at hrec ⊢
      rw [foldl_delim_shift]
      rw [joinSpec]
      rw [← hrec]
      simp [makeBarOutput, String.append_assoc]

/-- Claim C1: joining a non-empty list of module outputs with a delimiter
concatenates them in order with the delimiter between consecutive elements
and no leading or trailing delimiter; with two-bar mode disabled the
rendered text is the join of the top slots with the top delimiter, and with
two-bar mode enabled it is a leading space, the joined top text, a space,
the inter-bar delimiter, and the bottom slots joined with the bottom
delimiter, as in the end-to-end example. -/
theorem claim_C1_bar_join_render :
    (∀ (l : List String) (d : String), l ≠ [] → makeBarOutput l d = joinSpec d l) ∧
    (∀ (td bd btd : String) (top bottom : List String), top ≠ [] →
      renderBarText false td bd btd top bottom = joinSpec td top) ∧
    (∀ (td bd btd : String) (top bottom : List String), top ≠ [] → bottom ≠ [] →
      renderBarText true td bd btd top bottom
        = " " ++ joinSpec td top ++ " " ++ btd ++ joinSpec bd bottom) ∧
    renderBarText true " " " | " ";" ["A", "B"] ["C", "D", "E"] = " A B ;C | D | E" := by
  refine ⟨fun l d h => makeBarOutput_eq_joinSpec d l h, ?_, ?_, ?_⟩
  · intro td bd btd top bottom htop
    simp only [renderBarText, if_neg Bool.false_ne_true]
    exact makeBarOutput_eq_joinSpec td top htop
  · intro td bd btd top bottom htop hbot
    simp [renderBarText, makeBarOutput_eq_joinSpec td top htop,
      makeBarOutput_eq_joinSpec bd bottom hbot]
  · decide

/-- Witness for C1 at concrete inputs. -/
theorem claim_C1_witness :
    makeBarOutput ["a", "b", "c"] " | " = joinSpec " | " ["a", "b", "c"] ∧
    renderBarText false " " " | " ";" ["A"] [] = joinSpec " " ["A"] :=
  ⟨claim_C1_bar_join_render.1 ["a", "b", "c"] " | " (by decide),
   claim_C1_bar_join_render.2.1 " " " | " ";" ["A"] [] (by decide)⟩

/-- Every accepted bar list validates descriptor by descriptor. -/
theorem validateBar_none (moduleList : List (List String))
    (h : ∀ tb ∈ moduleList, validateModule tb = none) : validateBar moduleList = none := by
  induction moduleList with
  | nil => rfl
  | cons tb rest ih =>
    have htb : validateModule tb = none := h tb (by simp)
    simp only [validateBar, htb]
    exact ih (fun x hx => h x (by simp [hx]))

/-- Claim C2: descriptor validation exits with code 1 on a field count
other than 4, code 2 on a negative refresh interval, code 3 on a negative
signal offset, code 4 on an unrecognized non-external module name, in
declared order; when every descriptor passes, startup produces no exit
code and the aggregation loop never leaves its running state. -/
theorem claim_C2_startup_validation :
    (∀ tb : List String, tb.length ≠ 4 → validateModule tb = some 1) ∧
    (∀ name kind intervalStr rtSigStr : String, stoi intervalStr < 0 →
      validateModule [name, kind, intervalStr, rtSigStr] = some 2) ∧
    (∀ name kind intervalStr rtSigStr : String,
      0 ≤ stoi intervalStr → stoi rtSigStr < 0 →
      validateModule [name, kind, intervalStr, rtSigStr] = some 3) ∧
    (∀ name kind intervalStr rtSigStr : String, kind ≠ "external" →
      0 ≤ stoi intervalStr → 0 ≤ stoi rtSigStr → name ∉ internalModuleNames →
      validateModule [name, kind, intervalStr, rtSigStr] = some 4) ∧
    (∀ (twoBars : Bool) (topModuleList bottomModuleList : List (List String)),
      (∀ tb ∈ topModuleList, validateModule tb = none) →
      (∀ tb ∈ bottomModuleList, validateModule tb = none) →
      startupExit twoBars topModuleList bottomModuleList = none) ∧
    (∀ (twoBars : Bool) (td bd btd : String) (top bottom : List String) (n : Nat),
      (aggLoopRun twoBars td bd btd top bottom n).isRunning = true) := by
  refine ⟨?_, ?_, ?_, ?_, ?_, ?_⟩
  · intro tb h
    match tb with
    | [] => rfl
    | [_] => rfl
    | [_, _] => rfl
    | [_, _, _] => rfl
    | [_, _, _, _] => simp at h
    | _ :: _ :: _ :: _ :: _ :: _ => rfl
  · intro name kind intervalStr rtSigStr h
    by_cases hk : kind = "external" <;> simp [validateModule, hk, if_pos h]
  · intro name kind intervalStr rtSigStr h0 h
    have hni : ¬ stoi intervalStr < 0 := not_lt.mpr h0
    by_cases hk : kind = "external" <;>
      simp [validateModule, hk, if_neg hni, if_pos h]
  · intro name kind intervalStr rtSigStr hk h0 h1 hmem
    have hni : ¬ stoi intervalStr < 0 := not_lt.mpr h0
    have hns : ¬ stoi rtSigStr < 0 := not_lt.mpr h1
    simp only [internalModuleNames, List.mem_cons, List.mem_singleton, not_or] at hmem
    simp [validateModule, hk, if_neg hni, if_neg hns,
      hmem.1, hmem.2.1, hmem.2.2.1, hmem.2.2.2.1, hmem.2.2.2.2]
  · intro twoBars top bottom htop hbot
    simp only [startupExit, validateBar_none top htop]
    cases twoBars <;> simp [validateBar_none bottom hbot]
  · intro twoBars td bd btd top bottom n
    induction n with
    | zero => rfl
    | succ n ih =>
      cases hprev : aggLoopRun twoBars td bd btd top bottom n with
      | running s => simp [aggLoopRun, hprev, aggLoopIter, RunState.isRunning]
      | exited c => rw [hprev] at ih; exact absurd ih (by simp [RunState.isRunning])

/-- Witness for C2 at concrete descriptors: a 3-field descriptor, a
negative interval, a negative signal offset, an unknown internal name, and
an accepted configuration. -/
theorem claim_C2_witness :
    validateModule [["x"], ["y"], ["z"]].flatten = some 1 ∧
    validateModule ["pacupdate", "external", "-5", "9"] = some 2 ∧
    validateModule ["ModuleDate", "internal", "60", "-1"] = some 3 ∧
    validateModule ["ModuleFoo", "internal", "60", "1"] = some 4 ∧
    startupExit true [["ModuleDate", "internal", "60", "1"]]
      [["ModuleBattery", "internal", "5", "2"]] = none :=
  ⟨claim_C2_startup_validation.1 [["x"], ["y"], ["z"]].flatten (by decide),
   claim_C2_startup_validation.2.1 "pacupdate" "external" "-5" "9" (by decide),
   claim_C2_startup_validation.2.2.1 "ModuleDate" "internal" "60" "-1" (by decide) (by decide),
   claim_C2_startup_validation.2.2.2.1 "ModuleFoo" "internal" "60" "1" (by decide) (by decide)
     (by decide) (by decide),
   claim_C2_startup_validation.2.2.2.2.1 true
     [["ModuleDate", "internal", "60", "1"]] [["ModuleBattery", "internal", "5", "2"]]
     (by intro tb htb; simp at htb; subst htb; decide)
     (by intro tb htb; simp at htb; subst htb; decide)⟩

theorem intervalLoop_length (interval : Nat) :
    ∀ iters, (intervalLoop interval iters).length = 2 * iters := by
  intro iters
  induction iters with
  | zero => rfl
  | succ n ih => simp only [intervalLoop, List.length_cons, ih]; omega

theorem signalLoop_length : ∀ iters, (signalLoop iters).length = 2 * iters := by
  intro iters
  induction iters with
  | zero => rfl
  | succ n ih => simp only [signalLoop, List.length_cons, ih]; omega

theorem waitSig_not_mem_intervalLoop (interval : Nat) :
    ∀ iters, ModEvent.waitSig ∉ intervalLoop interval iters := by
  intro iters
  induction iters with
  | zero => simp [intervalLoop]
  | succ n ih => simp [intervalLoop, ih]

theorem sleepSec_not_mem_signalLoop (n : Nat) :
    ∀ iters, ModEvent.sleepSec n ∉ signalLoop iters := by
  intro iters
  induction iters with
  | zero => simp [signalLoop]
  | succ m ih => simp [signalLoop, ih]

theorem intervalLoop_get (interval : Nat) :
    ∀ iters k, k < iters →
      (intervalLoop interval iters)[2 * k]? = some ModEvent.poll ∧
      (intervalLoop interval iters)[2 * k + 1]? = some (ModEvent.sleepSec interval) := by
  intro iters
  induction iters with
  | zero => intro k h; exact absurd h (by omega)
  | succ n ih =>
    intro k hk
    cases k with
    | zero => simp [intervalLoop]
    | succ k =>
      obtain ⟨h1, h2⟩ := ih k (by omega)
      have e1 : 2 * (k + 1) = 2 * k + 1 + 1 := by ring
      have e2 : 2 * (k + 1) + 1 = 2 * k + 1 + 1 + 1 := by ring
      constructor
      · rw [e1]; simpa [intervalLoop, List.getElem?_cons_succ] using h1
      · rw [e2]; simpa [intervalLoop, List.getElem?_cons_succ] using h2

theorem signalLoop_get :
    ∀ iters k, k < iters →
      (signalLoop iters)[2 * k]? = some ModEvent.waitSig ∧
      (signalLoop iters)[2 * k + 1]? = some ModEvent.poll := by
  intro iters
  induction iters with
  | zero => intro k h; exact absurd h (by omega)
  | succ n ih =>
    intro k hk
    cases k with
    | zero => simp [signalLoop]
    | succ k =>
      obtain ⟨h1, h2⟩ := ih k (by omega)
      have e1 : 2 * (k + 1) = 2 * k + 1 + 1 := by ring
      have e2 : 2 * (k + 1) + 1 = 2 * k + 1 + 1 + 1 := by ring
      constructor
      · rw [e1]; simpa [signalLoop, List.getElem?_cons_succ] using h1
      · rw [e2]; simpa [signalLoop, List.getElem?_cons_succ] using h2

theorem signalLoop_count_poll : ∀ iters, (signalLoop iters).count ModEvent.poll = iters := by
  intro iters
  induction iters with
  | zero => rfl
  | succ n ih => simp [signalLoop, List.count_cons, ih]

theorem signalLoop_count_waitSig :
    ∀ iters, (signalLoop iters).count ModEvent.waitSig = iters := by
  intro iters
  induction iters with
  | zero => rfl
  | succ n ih => simp [signalLoop, List.count_cons, ih]

/-- Claim C3: with a positive refresh interval the worker trace is an
unbounded alternation of one poll-and-format step and one sleep of the
interval, with no signal wait anywhere (a real-time signal never triggers
an extra step); with interval 0 the trace is one immediate poll followed by
one wait-notification/poll pair per loop iteration, contains no timed
sleep, and has exactly one poll beyond the number of waits; in both cases
the trace grows strictly with further unrolling (the loop never
terminates). -/
theorem claim_C3_module_scheduling (interval iters : Nat) :
    (0 < interval →
      ModEvent.waitSig ∉ moduleTrace interval iters ∧
      (moduleTrace interval iters).length = 2 * iters ∧
      (∀ k, k < iters →
        (moduleTrace interval iters)[2 * k]? = some ModEvent.poll ∧
        (moduleTrace interval iters)[2 * k + 1]? = some (ModEvent.sleepSec interval))) ∧
    (interval = 0 →
      (∀ n, ModEvent.sleepSec n ∉ moduleTrace interval iters) ∧
      (moduleTrace interval iters)[0]? = some ModEvent.poll ∧
      (moduleTrace interval iters).length = 2 * iters + 1 ∧
      (moduleTrace interval iters).count ModEvent.poll
        = (moduleTrace interval iters).count ModEvent.waitSig + 1 ∧
      (∀ k, k < iters →
        (moduleTrace interval iters)[2 * k + 1]? = some ModEvent.waitSig ∧
        (moduleTrace interval iters)[2 * k + 2]? = some ModEvent.poll)) ∧
    (moduleTrace interval iters).length < (moduleTrace interval (iters + 1)).length := by
  refine ⟨?_, ?_, ?_⟩
  · intro hpos
    have hne : interval ≠ 0 := by omega
    simp only [moduleTrace, if_pos hne]
    exact ⟨waitSig_not_mem_intervalLoop interval iters,
      intervalLoop_length interval iters, intervalLoop_get interval iters⟩
  · intro hz
    subst hz
    simp only [moduleTrace, ne_eq, not_true_eq_false, if_false]
    refine ⟨?_, by simp, ?_, ?_, ?_⟩
    · intro n
      simp [sleepSec_not_mem_signalLoop n iters]
    · simp [signalLoop_length iters]
    · simp [List.count_cons, signalLoop_count_poll iters, signalLoop_count_waitSig iters]
    · intro k hk
      obtain ⟨h1, h2⟩ := signalLoop_get iters k hk
      constructor
      · simpa [List.getElem?_cons_succ] using h1
      · have e : 2 * k + 2 = 2 * k + 1 + 1 := by ring
        rw [e]; simpa [List.getElem?_cons_succ] using h2
  · by_cases hne : interval ≠ 0
    · simp only [moduleTrace, if_pos hne,
        intervalLoop_length interval iters, intervalLoop_length interval (iters + 1)]
      omega
    · simp only [moduleTrace, if_neg hne, List.length_cons,
        signalLoop_length iters, signalLoop_length (iters + 1)]
      omega

/-- Witness for C3 at a timed module (interval 2) and a signal-driven
module (interval 0), both unrolled three iterations. -/
theorem claim_C3_witness :
    (ModEvent.waitSig ∉ moduleTrace 2 3 ∧
      (moduleTrace 2 3).length = 2 * 3 ∧
      (∀ k, k < 3 →
        (moduleTrace 2 3)[2 * k]? = some ModEvent.poll ∧
        (moduleTrace 2 3)[2 * k + 1]? = some (ModEvent.sleepSec 2))) ∧
    ((∀ n, ModEvent.sleepSec n ∉ moduleTrace 0 3) ∧
      (moduleTrace 0 3)[0]? = some ModEvent.poll ∧
      (moduleTrace 0 3).length = 2 * 3 + 1 ∧
      (moduleTrace 0 3).count ModEvent.poll
        = (moduleTrace 0 3).count ModEvent.waitSig + 1 ∧
      (∀ k, k < 3 →
        (moduleTrace 0 3)[2 * k + 1]? = some ModEvent.waitSig ∧
        (moduleTrace 0 3)[2 * k + 2]? = some ModEvent.poll)) :=
  ⟨(claim_C3_module_scheduling 2 3).1 (by decide),
   (claim_C3_module_scheduling 0 3).2.1 rfl⟩

theorem battery_glue (s g lit : String) (h : lit = "% " ++ g) :
    s ++ lit = s ++ "% " ++ g := by
  rw [h]
  exact (String.append_assoc s "% " g).symm

/-- Claim C4 counterexample: a poll that reads status `Charging` and
capacity 100 writes nothing at all — the charging threshold chain ends at
`< 100.0` with no final else — whereas the claim requires the slot to be
set to the capacity text, `% `, and the glyph U+F578. -/
theorem claim_C4_counterexample :
    batteryRunModule (some "Charging") (some "100") = none ∧
    batteryRunModule (some "Charging") (some "100") ≠ some ("100% ") := by
  have h : batteryRunModule (some "Charging") (some "100")
      = batteryFormat "Charging" ((100 : Nat) : Rat) "100" := rfl
  have hc : ((100 : Nat) : Rat) = 100 := by norm_num
  have hval : batteryRunModule (some "Charging") (some "100") = none := by
    rw [h, hc]
    norm_num [batteryFormat]
  exact ⟨hval, by simp [hval]⟩

/-- Claim C4 (amended): the battery poll realizes the claimed two-branch
threshold table — capacity text + `% ` + the bucket glyph — except that a
charging capacity of 100 or more selects no bucket and leaves the slot
unchanged; the example values of the spec evaluate as claimed. -/
theorem claim_C4_battery_glyph_table :
    (∀ (batStatus : String) (batCapacity : Rat) (batCapacityStr : String),
      batteryFormat batStatus batCapacity batCapacityStr
        = (batteryGlyphSpec batStatus batCapacity).map
            (fun g => batCapacityStr ++ "% " ++ g)) ∧
    batteryRunModule (some "Charging") (some "15") = some ("15% ") ∧
    batteryRunModule (some "Discharging") (some "95") = some ("95% ") ∧
    batteryRunModule (some "Discharging") (some "100") = some ("100% ") ∧
    batteryRunModule (some "Full") (some "100") = some ("100% ") := by
  refine ⟨?_, ?_, ?_, ?_, ?_⟩
  · intro batStatus batCapacity batCapacityStr
    have hg1 : batCapacityStr ++ "% " = batCapacityStr ++ "% " ++ "" :=
      battery_glue _ _ _ (by decide)
    have hg2 : batCapacityStr ++ "% " = batCapacityStr ++ "% " ++ "" :=
      battery_glue _ _ _ (by decide)
    have hg3 : batCapacityStr ++ "% " = batCapacityStr ++ "% " ++ "" :=
      battery_glue _ _ _ (by decide)
    have hg4 : batCapacityStr ++ "% " = batCapacityStr ++ "% " ++ "" :=
      battery_glue _ _ _ (by decide)
    have hg5 : batCapacityStr ++ "% " = batCapacityStr ++ "% " ++ "" :=
      battery_glue _ _ _ (by decide)
    have hg6 : batCapacityStr ++ "% " = batCapacityStr ++ "% " ++ "" :=
      battery_glue _ _ _ (by decide)
    have hg7 : batCapacityStr ++ "% " = batCapacityStr ++ "% " ++ "" :=
      battery_glue _ _ _ (by decide)
    have hg8 : batCapacityStr ++ "% " = batCapacityStr ++ "% " ++ "" :=
      battery_glue _ _ _ (by decide)
    have hg9 : batCapacityStr ++ "% " = batCapacityStr ++ "% " ++ "" :=
      battery_glue _ _ _ (by decide)
    have hg10 : batCapacityStr ++ "% " = batCapacityStr ++ "% " ++ "" :=
      battery_glue _ _ _ (by decide)
    have hg11 : batCapacityStr ++ "% " = batCapacityStr ++ "% " ++ "" :=
      battery_glue _ _ _ (by decide)
    have hg12 : batCapacityStr ++ "% " = batCapacityStr ++ "% " ++ "" :=
      battery_glue _ _ _ (by decide)
    have hg13 : batCapacityStr ++ "% " = batCapacityStr ++ "% " ++ "" :=
      battery_glue _ _ _ (by decide)
    have hg14 : batCapacityStr ++ "% " = batCapacityStr ++ "% " ++ "" :=
      battery_glue _ _ _ (by decide)
    have hg15 : batCapacityStr ++ "% " = batCapacityStr ++ "% " ++ "" :=
      battery_glue _ _ _ (by decide)
    have hg16 : batCapacityStr ++ "% " = batCapacityStr ++ "% " ++ "" :=
      battery_glue _ _ _ (by decide)
    have hg17 : batCapacityStr ++ "% " = batCapacityStr ++ "% " ++ "" :=
      battery_glue _ _ _ (by decide)
    have hg18 : batCapacityStr ++ "% " = batCapacityStr ++ "% " ++ "" :=
      battery_glue _ _ _ (by decide)
    by_cases hs : batStatus = "Charging"
    · simp only [batteryFormat, batteryGlyphSpec, if_pos hs]
      by_cases c1 : batCapacity < 5
      · simp only [if_pos c1, Option.map_some']
        exact congrArg some hg1
      · simp only [if_neg c1]
        by_cases c2 : batCapacity < 20
        · simp only [if_pos c2, Option.map_some']
          exact congrArg some hg2
        · simp only [if_neg c2]
          by_cases c3 : batCapacity < 30
          · simp only [if_pos c3, Option.map_some']
            exact congrArg some hg3
          · simp only [if_neg c3]
            by_cases c4 : batCapacity < 40
            · simp only [if_pos c4, Option.map_some']
              exact congrArg some hg4
            · simp only [if_neg c4]
              by_cases c5 : batCapacity < 60
              · simp only [if_pos c5, Option.map_some']
                exact congrArg some hg5
              · simp only [if_neg c5]
                by_cases c6 : batCapacity < 80
                · simp only [if_pos c6, Option.map_some']
                  exact congrArg some hg6
                · simp only [if_neg c6]
                  by_cases c7 : batCapacity < 90
                  · simp only [if_pos c7, Option.map_some']
                    exact congrArg some hg7
                  · simp only [if_neg c7]
                    by_cases c8 : batCapacity < 100
                    · simp only [if_pos c8, Option.map_some']
                      exact congrArg some hg8
                    · simp only [if_neg c8]
                      simp only [Option.map_none']
    · simp only [batteryFormat, batteryGlyphSpec, if_neg hs]
      by_cases d1 : batCapacity < 5
      · simp only [if_pos d1, Option.map_some']
        exact congrArg some hg1
      · simp only [if_neg d1]
        by_cases d2 : batCapacity < 10
        · simp only [if_pos d2, Option.map_some']
          exact congrArg some hg9
        · simp only [if_neg d2]
          by_cases d3 : batCapacity < 20
          · simp only [if_pos d3, Option.map_some']
            exact congrArg some hg10
          · simp only [if_neg d3]
            by_cases d4 : batCapacity < 30
            · simp only [if_pos d4, Option.map_some']
              exact congrArg some hg11
            · simp only [if_neg d4]
              by_cases d5 : batCapacity < 40
              · simp only [if_pos d5, Option.map_some']
                exact congrArg some hg12
              · simp only [if_neg d5]
                by_cases d6 : batCapacity < 50
                · simp only [if_pos d6, Option.map_some']
                  exact congrArg some hg13
                · simp only [if_neg d6]
                  by_cases d7 : batCapacity < 60
                  · simp only [if_pos d7, Option.map_some']
                    exact congrArg some hg14
                  · simp only [if_neg d7]
                    by_cases d8 : batCapacity < 70
                    · simp only [if_pos d8, Option.map_some']
                      exact congrArg some hg15
                    · simp only [if_neg d8]
                      by_cases d9 : batCapacity < 80
                      · simp only [if_pos d9, Option.map_some']
                        exact congrArg some hg16
                      · simp only [if_neg d9]
                        by_cases d10 : batCapacity < 90
                        · simp only [if_pos d10, Option.map_some']
                          exact congrArg some hg17
                        · simp only [if_neg d10]
                          by_cases d11 : batCapacity < 100
                          · simp only [if_pos d11, Option.map_some']
                            exact congrArg some hg8
                          · simp only [if_neg d11]
                            by_cases dd : batStatus = "Discharging"
                            · simp only [if_pos dd, Option.map_some']
                              exact congrArg some hg8
                            · simp only [if_neg dd, Option.map_some']
                              exact congrArg some hg18
  · have h : batteryRunModule (some "Charging") (some "15")
        = batteryFormat "Charging" ((15 : Nat) : Rat) "15" := rfl
    rw [h, show ((15 : Nat) : Rat) = 15 from by norm_num]
    norm_num [batteryFormat]
    decide
  · have h : batteryRunModule (some "Discharging") (some "95")
        = batteryFormat "Discharging" ((95 : Nat) : Rat) "95" := rfl
    rw [h, show ((95 : Nat) : Rat) = 95 from by norm_num]
    norm_num [batteryFormat]
    decide
  · have h : batteryRunModule (some "Discharging") (some "100")
        = batteryFormat "Discharging" ((100 : Nat) : Rat) "100" := rfl
    rw [h, show ((100 : Nat) : Rat) = 100 from by norm_num]
    norm_num [batteryFormat]
    decide
  · have h : batteryRunModule (some "Full") (some "100")
        = batteryFormat "Full" ((100 : Nat) : Rat) "100" := rfl
    rw [h, show ((100 : Nat) : Rat) = 100 from by norm_num]
    norm_num [batteryFormat]
    decide

/-- Claim C5 counterexample: in the final `ModuleBattery::runModule_` a
poll with both sysfs files unreadable still writes — the empty capacity
text parses to 0, which lands in the lowest non-charging bucket — whereas
the claim requires that no write occur. -/
theorem claim_C5_counterexample :
    batteryRunModule none none = some ("% ") ∧
    batteryRunModule none none ≠ none := by
  have h : batteryRunModule none none = batteryFormat "" 0 "" := rfl
  have hval : batteryRunModule none none = some ("% ") := by
    rw [h]
    norm_num [batteryFormat]
  exact ⟨hval, by simp [hval]⟩

/-- Claim C5 (amended): the slot-unchanged behavior on an unreadable
status or capacity file belongs to the superseded
`ModuleBattery::formatStatus_`, which returns before writing; the final
`ModuleBattery::runModule_` instead continues with empty text (capacity 0)
and still writes the corresponding bucket text. -/
theorem claim_C5_battery_unreadable :
    (∀ statusRead capacityRead : Option String,
      statusRead = none ∨ capacityRead = none →
      formatStatus statusRead capacityRead = none) ∧
    batteryRunModule none none = some ("% ") ∧
    batteryRunModule none (some "42") = some ("42% ") := by
  refine ⟨?_, ?_, ?_⟩
  · rintro s c (rfl | rfl)
    · rfl
    · cases s <;> rfl
  · have h : batteryRunModule none none = batteryFormat "" 0 "" := rfl
    rw [h]
    norm_num [batteryFormat]
  · have h : batteryRunModule none (some "42")
        = batteryFormat "" ((42 : Nat) : Rat) "42" := rfl
    rw [h, show ((42 : Nat) : Rat) = 42 from by norm_num]
    norm_num [batteryFormat]
    decide

/-- Witness for C5 at concrete unreadable reads. -/
theorem claim_C5_witness :
    formatStatus none (some "77") = none ∧
    formatStatus (some "Charging") none = none :=
  ⟨claim_C5_battery_unreadable.1 none (some "77") (Or.inl rfl),
   claim_C5_battery_unreadable.1 (some "Charging") none (Or.inr rfl)⟩

theorem accumLoads_high (i : Rat) :
    ∀ (l : List Rat) (t : Rat) (fInd : Nat), 6 ≤ fInd →
      accumLoads fInd i t l = (i, t + l.sum) := by
  intro l
  induction l with
  | nil => intro t fInd h; simp [accumLoads]
  | cons f rest ih =>
    intro t fInd h
    have h4 : ¬ (fInd = 4 ∨ fInd = 5) := by omega
    simp only [accumLoads, if_neg h4]
    rw [ih (t + f) (fInd + 1) (by omega)]
    simp only [List.sum_cons, Prod.mk.injEq, true_and]
    ring

theorem accumLoads_firstFive (a b c d e : Rat) (rest : List Rat) :
    accumLoads 1 0 0 (a :: b :: c :: d :: e :: rest)
      = (d + e, a + b + c + d + e + rest.sum) := by
  simp only [accumLoads]
  norm_num
  rw [accumLoads_high (d + e) rest (a + b + c + d + e) 6 (by omega)]

/-- Claim C6: on a poll with a non-empty first `/proc/stat` line, the total
is the sum of all numeric fields after the label and the idle sum is the
4th plus the 5th numeric field; the percent load is
(1 − (idle − previousIdleLoad)/(total − previousTotalLoad)) × 100 formatted
to one decimal; both previous sums start at 0 and are overwritten with the
current sums after the poll; the spec example evaluates to "75.0". -/
theorem claim_C6_cpu_load :
    initialCPUState = ⟨0, 0⟩ ∧
    (∀ (a b c d e : Rat) (rest : List Rat),
      accumLoads 1 0 0 (a :: b :: c :: d :: e :: rest)
        = (d + e, a + b + c + d + e + rest.sum)) ∧
    (∀ (st : CPUState) (fields : List Rat),
      cpuPoll st (some fields)
        = (⟨(accumLoads 1 0 0 fields).2, (accumLoads 1 0 0 fields).1⟩,
            (1 - ((accumLoads 1 0 0 fields).1 - st.previousIdleLoad)
                / ((accumLoads 1 0 0 fields).2 - st.previousTotalLoad)) * 100)) ∧
    cpuPoll ⟨1000, 100⟩ (some [500, 200, 350, 100, 50]) = (⟨1200, 150⟩, 75) ∧
    cpuLoadText 75 = "75.0" := by
  refine ⟨rfl, fun a b c d e rest => accumLoads_firstFive a b c d e rest,
    fun st fields => rfl, ?_, ?_⟩
  · have hacc : accumLoads 1 0 0 [(500 : Rat), 200, 350, 100, 50] = (150, 1200) := by
      rw [accumLoads_firstFive 500 200 350 100 50 []]
      norm_num
    simp only [cpuPoll, hacc]
    norm_num
  · have h1 : (75 : Rat).num = 75 := by norm_num
    have h2 : (75 : Rat).den = 1 := by norm_num
    simp [cpuLoadText, fmt1, ratRoundScaled, h1, h2]
    decide

theorem diskLoop_length :
    ∀ (stats : List (Option (Nat × Nat))) (iconInd : Nat) (output : String),
      (diskLoop iconInd output stats).length = stats.length := by
  intro stats
  induction stats with
  | nil => intro _ _; rfl
  | cons stat rest ih => intro n out; simp [diskLoop, ih]

theorem diskLoop_getD :
    ∀ (stats : List (Option (Nat × Nat))) (iconInd : Nat) (output : String) (k : Nat),
      k < stats.length →
      (diskLoop iconInd output stats).getD k ""
        = output ++ fragsConcat iconInd (stats.take (k + 1)) := by
  intro stats
  induction stats with
  | nil => intro _ _ k h; exact absurd h (by simp)
  | cons stat rest ih =>
    intro n out k hk
    cases k with
    | zero =>
      simp [diskLoop, fragsConcat, String.append_assoc]
    | succ k =>
      simp only [diskLoop, List.getD_cons_succ]
      rw [ih (n + 1) (out ++ diskFragment n stat) k (by simpa using hk)]
      simp [fragsConcat, String.append_assoc]

/-- Claim C7: one slot write and orchestrator notification per file system
processed (not one at the end); the k-th write is the in-order
concatenation of the first k+1 fragments; the first fragment carries the
home icon and every later one the disk icon; a failed statistics call
contributes value 0, hence the text `0Gi`, instead of omitting the path;
the fragment value is available blocks times block size over 2^30 with 0
decimals. -/
theorem claim_C7_disk_incremental :
    (∀ stats : List (Option (Nat × Nat)), (diskWrites stats).length = stats.length) ∧
    (∀ (stats : List (Option (Nat × Nat))) (k : Nat), k < stats.length →
      (diskWrites stats).getD k "" = fragsConcat 0 (stats.take (k + 1))) ∧
    (∀ stat, diskFragment 0 stat = " " ++ fmt0 (diskSpaceValue stat) ++ "Gi") ∧
    (∀ n stat, diskFragment (n + 1) stat = "   " ++ fmt0 (diskSpaceValue stat) ++ "Gi") ∧
    diskSpaceValue none = 0 ∧
    (∀ bavail bsize : Nat,
      diskSpaceValue (some (bavail, bsize)) = ((bavail * bsize : Nat) : Rat) / 1073741824) ∧
    diskFragment 0 none = " " ++ "0Gi" ∧
    diskWrites [some (524288, 4096), none] = [" 2Gi", " 2Gi   0Gi"] := by
  have hz : (0 : Rat).num = 0 := rfl
  have hzd : (0 : Rat).den = 1 := rfl
  have hf0 : fmt0 0 = "0" := by
    simp [fmt0, ratRoundScaled, hz, hzd]
    decide
  have hv : diskSpaceValue (some (524288, 4096)) = 2 := by
    simp only [diskSpaceValue]
    push_cast
    norm_num
  have h2n : (2 : Rat).num = 2 := by norm_num
  have h2d : (2 : Rat).den = 1 := by norm_num
  have hf2 : fmt0 2 = "2" := by
    simp [fmt0, ratRoundScaled, h2n, h2d]
    decide
  refine ⟨fun stats => diskLoop_length stats 0 "", ?_, ?_, ?_, rfl, fun _ _ => rfl, ?_, ?_⟩
  · intro stats k hk
    rw [diskWrites, diskLoop_getD stats 0 "" k hk]
    simp
  · intro stat; simp [diskFragment]
  · intro n stat; simp [diskFragment]
  · simp [diskFragment, diskSpaceValue, hf0]
  · have hvn : diskSpaceValue none = 0 := rfl
    simp only [diskWrites, diskLoop, diskFragment, hv, hvn, hf2, hf0]
    decide

/-- Witness for C7: on a two-filesystem poll with a failing second
statistics call, the second slot write extends the first. -/
theorem claim_C7_witness :
    (diskWrites [some (524288, 4096), none]).getD 1 ""
      = fragsConcat 0 ([some (524288, 4096), none].take 2) :=
  claim_C7_disk_incremental.2.1 [some (524288, 4096), none] 1 (by decide)

/-- Claim C8: the external module writes the captured standard output
verbatim (no added glyphs): output longer than 500 characters is cut to
exactly its first 500 characters, output of 500 or fewer passes through
unchanged.  The step body is modelled from the spec because the
`ModuleExtern::runModule_` body is absent from the provided sources. -/
theorem claim_C8_extern_truncation :
    (∀ captured : String, lengthLimit_ < captured.length →
      externOutput captured = String.mk (captured.data.take lengthLimit_) ∧
      (externOutput captured).length = lengthLimit_) ∧
    (∀ captured : String, captured.length ≤ lengthLimit_ →
      externOutput captured = captured) := by
  constructor
  · intro s h
    have he : externOutput s = String.mk (s.data.take lengthLimit_) := by
      unfold externOutput
      rw [if_pos h]
    refine ⟨he, ?_⟩
    rw [he]
    have hm : (String.mk (s.data.take lengthLimit_)).length
        = (s.data.take lengthLimit_).length := rfl
    rw [hm, List.length_take]
    have hs : s.data.length = s.length := rfl
    rw [hs]
    exact Nat.min_eq_left (Nat.le_of_lt h)
  · intro s h
    have hnot : ¬ lengthLimit_ < s.length := not_lt.mpr h
    unfold externOutput
    rw [if_neg hnot]

set_option maxRecDepth 4096 in
/-- Witness for C8 at a 501-character output and a short output. -/
theorem claim_C8_witness :
    externOutput (String.mk (List.replicate 501 'a'))
      = String.mk ((String.mk (List.replicate 501 'a')).data.take lengthLimit_) ∧
    (externOutput (String.mk (List.replicate 501 'a'))).length = lengthLimit_ ∧
    externOutput "3 updates" = "3 updates" :=
  ⟨(claim_C8_extern_truncation.1 (String.mk (List.replicate 501 'a')) (by decide)).1,
   (claim_C8_extern_truncation.1 (String.mk (List.replicate 501 'a')) (by decide)).2,
   claim_C8_extern_truncation.2 "3 updates" (by decide)⟩

/-- Claim C9: the claim demands that a failed data read leave the step
total, with the slot unchanged; the RAM step violates it — with
`/proc/meminfo` unreadable, or readable but without a `MemFree:` line, the
second-token text is empty and the unguarded `stof` throws, crashing the
worker — while a readable `MemFree:` line is formatted normally. -/
theorem claim_C9_ram_crash :
    ramStep [] = StepResult.crashed ∧
    ramStep ["MemTotal:        8000000 kB"] = StepResult.crashed ∧
    ramStep ["MemFree:        2097152 kB"] = StepResult.ok (" " ++ "2.0" ++ "Gi") := by
  refine ⟨by decide, by decide, ?_⟩
  have hstep : ramStep ["MemFree:        2097152 kB"]
      = StepResult.ok (" " ++ fmt1 (((2097152 : Nat) : Rat) / 1048576) ++ "Gi") := by
    have hd : digitsToNat 0 "2097152".data = some 2097152 := by decide
    have hsw : secondWord (findMemFreeLine ["MemFree:        2097152 kB"]) = "2097152" := by
      decide
    simp only [ramStep, hsw, stofPos,
      if_neg (show ¬ ("2097152".data = []) from by decide), hd, Option.map_some']
    rfl
  rw [hstep]
  have hcast : ((2097152 : Nat) : Rat) / 1048576 = 2 := by push_cast; norm_num
  rw [hcast]
  have h2n : (2 : Rat).num = 2 := by norm_num
  have h2d : (2 : Rat).den = 1 := by norm_num
  have hf : fmt1 2 = "2.0" := by
    simp [fmt1, ratRoundScaled, h2n, h2d]
    decide
  rw [hf]

/-- Claim C10 counterexample: the descriptor with signal offset 30 passes
validation — only negative offsets are rejected — yet 30 is not below the
table size, so the `signalCondition[30]` access is out of bounds. -/
theorem claim_C10_counterexample :
    validateModule ["ModuleDate", "internal", "0", "30"] = none ∧
    ¬ (stoi "30" < (sigRTNUM : Int)) := by
  constructor
  · decide
  · decide

/-- Claim C10 (amended): validation guarantees only that the signal offset
of an accepted descriptor is non-negative; the 30-entry table access is in
bounds exactly when the offset is additionally below 30, which validation
does not check (offset 30 is accepted and out of bounds). -/
theorem claim_C10_signal_offset_bounds :
    ∀ name kind intervalStr rtSigStr : String,
      validateModule [name, kind, intervalStr, rtSigStr] = none →
      0 ≤ stoi rtSigStr ∧
      (signalTableInBounds (stoi rtSigStr) ↔ stoi rtSigStr < (sigRTNUM : Int)) := by
  intro name kind intervalStr rtSigStr h
  have hs : ¬ stoi rtSigStr < 0 := by
    intro hneg
    by_cases hk : kind = "external" <;> by_cases hi : stoi intervalStr < 0 <;>
      simp [validateModule, hk, hi, hneg] at h
  refine ⟨not_lt.mp hs, ?_⟩
  constructor
  · exact fun hb => hb.2
  · exact fun hb => ⟨not_lt.mp hs, hb⟩

/-- Witness for C10 at an accepted descriptor with offset 3. -/
theorem claim_C10_witness :
    0 ≤ stoi "3" ∧
    (signalTableInBounds (stoi "3") ↔ stoi "3" < (sigRTNUM : Int)) :=
  claim_C10_signal_offset_bounds "ModuleCPU" "internal" "2" "3" (by decide)

end DWMBspace
